import Mathlib

/-
A shallow embedding of `src/update_daily_news.py`, the single automation
script of the repository.  The script fetches insurance news from a web
search API (with a broader fallback query when results are sparse), asks a
sequence of generative models to summarize them (first success wins, with a
fixed sleep on rate limits), extracts the first bracket-delimited array from
the response text and parses it as JSON, and splices the result into
`index.html` right after the `const NEWS_DATABASE = {` anchor unless the
current date already occurs as a key marker in the document.

Strings are modelled as `List Char`.  Network calls and model calls are
modelled by explicit outcome values supplied through an environment; the
functions below mirror the control flow of the Python source.  `json.dumps`
of the generated entries is modelled as an uninterpreted serialization
function in the environment (the claims treat its output as an opaque
pretty-printed fragment).
-/

/-- One search result, passed through opaquely from the search API. -/
structure NewsResult where
  title : List Char
  url : List Char
  description : List Char
deriving DecidableEq

/-- Outcome of one `requests.get` call: either the request raises
(transport error) or returns a status code together with the parsed
`web.results` list of the body. -/
inductive HttpResp where
  | raise
  | resp (status : Nat) (results : List NewsResult)
deriving DecidableEq

/-- What `fetch_insurance_news` did: whether the broader fallback query was
issued, and either the returned result list or the `sys.exit` code. -/
structure FetchTrace where
  fallbackCalled : Bool
  outcome : Except Nat (List NewsResult)

/-- Embedding of `fetch_insurance_news` (src lines 21-53).  The primary
request's results are kept only on HTTP 200; if fewer than 3 results were
obtained, exactly one broader query is issued and its results are taken on
HTTP 200 (otherwise the previous list is kept).  Any raised request error
leads to `sys.exit(1)`. -/
def fetch_insurance_news (primary fallback : HttpResp) : FetchTrace :=
  match primary with
  | .raise => ⟨false, .error 1⟩
  | .resp st rs =>
    let results := if st = 200 then rs else []
    if results.length < 3 then
      match fallback with
      | .raise => ⟨true, .error 1⟩
      | .resp st2 rs2 =>
        let results2 := if st2 = 200 then rs2 else results
        ⟨true, .ok results2⟩
    else ⟨false, .ok results⟩

/-- Outcome of one `model.generate_content` call: the rate-limit exception
`ResourceExhausted`, any other exception, or a successful response whose
`.text` is the given string. -/
inductive GenOutcome where
  | rateLimited
  | genError
  | success (text : List Char)
deriving DecidableEq

/-- The fixed priority-ordered model list (src lines 60-64). -/
def models_to_try : List String :=
  ["gemini-2.0-flash", "gemini-1.5-pro", "gemini-1.5-flash"]

/-- The model-fallback loop (src lines 68-102).  Returns the list of
attempted models paired with the seconds slept after each attempt
(`time.sleep(10)` on `ResourceExhausted`, nothing otherwise), and the
response text of the first success, if any. -/
def genLoop (f : String → GenOutcome) : List String → List (String × Nat) × Option (List Char)
  | [] => ([], none)
  | m :: ms =>
    match f m with
    | .success text => ([(m, 0)], some text)
    | .rateLimited => ((m, 10) :: (genLoop f ms).1, (genLoop f ms).2)
    | .genError => ((m, 0) :: (genLoop f ms).1, (genLoop f ms).2)

/-- JSON values, as produced by `json.loads`.  Numbers keep their source
lexeme (the script never inspects numeric values). -/
inductive Json where
  | null
  | bool (b : Bool)
  | num (lexeme : List Char)
  | str (s : List Char)
  | arr (elems : List Json)
  | obj (fields : List (List Char × Json))

/-- JSON insignificant whitespace (space, tab, newline, carriage return). -/
def skipWs (s : List Char) : List Char :=
  s.dropWhile (fun c => c = ' ' || c = '\t' || c = '\n' || c = '\r')

/-- Value of one hexadecimal digit. -/
def hexVal (c : Char) : Option Nat :=
  if '0' ≤ c ∧ c ≤ '9' then some (c.toNat - ('0').toNat)
  else if 'a' ≤ c ∧ c ≤ 'f' then some (c.toNat - ('a').toNat + 10)
  else if 'A' ≤ c ∧ c ≤ 'F' then some (c.toNat - ('A').toNat + 10)
  else none

/-- The simple JSON string escapes. -/
def escChar (c : Char) : Option Char :=
  if c = '"' then some '"'
  else if c = '\\' then some '\\'
  else if c = '/' then some '/'
  else if c = 'b' then some (Char.ofNat 8)
  else if c = 'f' then some (Char.ofNat 12)
  else if c = 'n' then some '\n'
  else if c = 'r' then some '\r'
  else if c = 't' then some '\t'
  else none

/-- Parse the remainder of a JSON string after the opening quote.  Strict
mode: unescaped control characters are rejected; `\uXXXX` escapes are
decoded individually (surrogate pairs are not recombined; no claim depends
on that corner). -/
def parseStrRest : Nat → List Char → Option (List Char × List Char)
  | 0, _ => none
  | _, [] => none
  | fuel+1, c :: r =>
    if c = '"' then some ([], r)
    else if c = '\\' then
      match r with
      | [] => none
      | e :: r2 =>
        if e = 'u' then
          match r2 with
          | h1 :: h2 :: h3 :: h4 :: r3 =>
            match hexVal h1, hexVal h2, hexVal h3, hexVal h4 with
            | some a, some b, some c2, some d =>
              (parseStrRest fuel r3).map
                (fun p => (Char.ofNat (((a * 16 + b) * 16 + c2) * 16 + d) :: p.1, p.2))
            | _, _, _, _ => none
          | _ => none
        else
          match escChar e with
          | some ec => (parseStrRest fuel r2).map (fun p => (ec :: p.1, p.2))
          | none => none
    else if c.toNat < 32 then none
    else (parseStrRest fuel r).map (fun p => (c :: p.1, p.2))

/-- Leading run of decimal digits. -/
def spanDigits (s : List Char) : List Char × List Char :=
  (s.takeWhile Char.isDigit, s.dropWhile Char.isDigit)

/-- Optional fraction part of a JSON number. -/
def parseFrac (lex s : List Char) : Option (List Char × List Char) :=
  match s with
  | '.' :: r =>
    let p := spanDigits r
    if p.1.isEmpty then none else some (lex ++ '.' :: p.1, p.2)
  | _ => some (lex, s)

/-- Optional exponent part of a JSON number. -/
def parseExp (lex s : List Char) : Option (List Char × List Char) :=
  match s with
  | [] => some (lex, s)
  | c :: r =>
    if c = 'e' ∨ c = 'E' then
      match r with
      | [] => none
      | sgn :: r2 =>
        if sgn = '+' ∨ sgn = '-' then
          let p := spanDigits r2
          if p.1.isEmpty then none else some (lex ++ c :: sgn :: p.1, p.2)
        else
          let p := spanDigits r
          if p.1.isEmpty then none else some (lex ++ c :: p.1, p.2)
    else some (lex, s)

/-- Fraction and exponent after the integer part of a JSON number. -/
def afterIntPart (lex s : List Char) : Option (List Char × List Char) :=
  match parseFrac lex s with
  | none => none
  | some p => parseExp p.1 p.2

/-- Lex a JSON number (`-?(0|[1-9][0-9]*)(\.[0-9]+)?([eE][+-]?[0-9]+)?`),
returning the lexeme and the rest of the input. -/
def parseNum (s : List Char) : Option (List Char × List Char) :=
  let p := match s with
    | '-' :: r => (['-'], r)
    | _ => (([] : List Char), s)
  match p.2 with
  | '0' :: r1 => afterIntPart (p.1 ++ ['0']) r1
  | c :: r1 =>
    if c.isDigit && c != '0' then
      let q := spanDigits r1
      afterIntPart (p.1 ++ c :: q.1) q.2
    else none
  | [] => none

/-- Parser modes: a value, the remaining elements of an array, or the
remaining members of an object. -/
inductive PMode where
  | value
  | arrRest (acc : List Json)
  | objRest (acc : List (List Char × Json))

/-- A model of CPython's `json.loads` scanner over `List Char`, fueled so
that it is structurally recursive.  `NaN`/`Infinity`/`-Infinity` are
accepted as number lexemes, as `json.loads` accepts them by default. -/
def parseJ : Nat → PMode → List Char → Option (Json × List Char)
  | 0, _, _ => none
  | fuel+1, .value, s =>
    match skipWs s with
    | 'n' :: 'u' :: 'l' :: 'l' :: r => some (.null, r)
    | 't' :: 'r' :: 'u' :: 'e' :: r => some (.bool true, r)
    | 'f' :: 'a' :: 'l' :: 's' :: 'e' :: r => some (.bool false, r)
    | 'N' :: 'a' :: 'N' :: r => some (.num (['N', 'a', 'N']), r)
    | 'I' :: 'n' :: 'f' :: 'i' :: 'n' :: 'i' :: 't' :: 'y' :: r =>
      some (.num ("Infinity".data), r)
    | '-' :: 'I' :: 'n' :: 'f' :: 'i' :: 'n' :: 'i' :: 't' :: 'y' :: r =>
      some (.num ("-Infinity".data), r)
    | '"' :: r =>
      match parseStrRest (r.length + 1) r with
      | some p => some (.str p.1, p.2)
      | none => none
    | '[' :: r =>
      (match skipWs r with
       | ']' :: r2 => some (.arr [], r2)
       | _ => parseJ fuel (.arrRest []) r)
    | '\x7b' :: r =>
      (match skipWs r with
       | '\x7d' :: r2 => some (.obj [], r2)
       | _ => parseJ fuel (.objRest []) r)
    | s1 =>
      match parseNum s1 with
      | some p => some (.num p.1, p.2)
      | none => none
  | fuel+1, .arrRest acc, s =>
    match parseJ fuel .value s with
    | none => none
    | some (v, r) =>
      match skipWs r with
      | ',' :: r2 => parseJ fuel (.arrRest (v :: acc)) r2
      | ']' :: r2 => some (.arr (acc.reverse ++ [v]), r2)
      | _ => none
  | fuel+1, .objRest acc, s =>
    match skipWs s with
    | '"' :: r =>
      (match parseStrRest (r.length + 1) r with
       | none => none
       | some kp =>
         match skipWs kp.2 with
         | ':' :: r2 =>
           (match parseJ fuel .value r2 with
            | none => none
            | some (v, r3) =>
              match skipWs r3 with
              | ',' :: r4 => parseJ fuel (.objRest ((kp.1, v) :: acc)) r4
              | '\x7d' :: r4 => some (.obj (acc.reverse ++ [(kp.1, v)]), r4)
              | _ => none)
         | _ => none)
    | _ => none

/-- Model of `json.loads`: parse one value and require only whitespace to
remain. -/
def json_loads (s : List Char) : Option Json :=
  match parseJ (2 * s.length + 2) .value s with
  | some p => if (skipWs p.2).isEmpty then some p.1 else none
  | none => none

/-- Index of the first unescaped-irrelevant occurrence of a character. -/
def firstIdxOf (c : Char) (s : List Char) : Option Nat :=
  s.findIdx? (fun x => x = c)

/-- Index of the last occurrence of a character. -/
def lastIdxOf (c : Char) (s : List Char) : Option Nat :=
  match s.reverse.findIdx? (fun x => x = c) with
  | none => none
  | some k => some (s.length - 1 - k)

/-- Embedding of `re.search(r'\[.*\]', text, re.DOTALL)` followed by
`.group()` (src line 110): with a greedy `.*` under DOTALL, the match, when
it exists, runs from the first `[` of the text to the last `]`, and exists
exactly when some `]` occurs after some `[`. -/
def extractArray (s : List Char) : Option (List Char) :=
  match firstIdxOf '[' s, lastIdxOf ']' s with
  | some i, some j => if i < j then some ((s.drop i).take (j - i + 1)) else none
  | _, _ => none

/-- What `generate_news_entry` did: attempted models with the sleep after
each attempt, and either the parsed JSON value or the `sys.exit` code. -/
structure GenTrace where
  attempts : List (String × Nat)
  outcome : Except Nat Json

/-- Embedding of `generate_news_entry` (src lines 55-122): run the model
fallback loop; if no model succeeded, `sys.exit(1)`; otherwise extract the
first bracket-delimited array substring of the response text and parse it
as JSON, exiting with code 1 when extraction or parsing fails. -/
def generate_news_entry (f : String → GenOutcome) : GenTrace :=
  match genLoop f models_to_try with
  | (tr, none) => ⟨tr, .error 1⟩
  | (tr, some text) =>
    match extractArray text with
    | none => ⟨tr, .error 1⟩
    | some s =>
      match json_loads s with
      | none => ⟨tr, .error 1⟩
      | some v => ⟨tr, .ok v⟩

/-- `startsWith pat s` holds when `pat` occurs at the very start of `s`. -/
def startsWith : List Char → List Char → Bool
  | [], _ => true
  | _ :: _, [] => false
  | p :: ps, c :: cs => p = c && startsWith ps cs

/-- Python's `pat in s` substring test. -/
def containsSub (pat : List Char) : List Char → Bool
  | [] => startsWith pat []
  | c :: rest => startsWith pat (c :: rest) || containsSub pat rest

/-- The anchor token `const NEWS_DATABASE = {` (src line 145). -/
def ANCHOR : List Char := ("const NEWS_DATABASE = \x7b").data

/-- The duplicate-day guard marker `f'"{date_str}":'` (src line 133). -/
def dupMarker (date : List Char) : List Char := '"' :: (date ++ ['"', ':'])

/-- One item of a parsed `re.sub` replacement template: a literal
character, or a reference to a capture group. -/
inductive TItem where
  | lit (c : Char)
  | group (n : Nat)
deriving DecidableEq

/-- Octal digit test. -/
def isOct (c : Char) : Bool := '0' ≤ c && c ≤ '7'

/-- Value of a decimal (or octal) digit. -/
def digVal (c : Char) : Nat := c.toNat - ('0').toNat

/-- ASCII letter test, as in `re`'s `ASCIILETTERS`. -/
def isAsciiLetter (c : Char) : Bool :=
  ('a' ≤ c && c ≤ 'z') || ('A' ≤ c && c ≤ 'Z')

/-- The replacement-template character escapes of `re._parser.ESCAPES`. -/
def replEsc (c : Char) : Option Char :=
  if c = 'a' then some (Char.ofNat 7)
  else if c = 'b' then some (Char.ofNat 8)
  else if c = 'f' then some (Char.ofNat 12)
  else if c = 'n' then some '\n'
  else if c = 'r' then some '\r'
  else if c = 't' then some '\t'
  else if c = 'v' then some (Char.ofNat 11)
  else if c = '\\' then some '\\'
  else none

/-- Decimal value of a digit string. -/
def natOfDigits (ds : List Char) : Nat :=
  ds.foldl (fun a c => a * 10 + digVal c) 0

/-- Model of CPython's `re._parser.parse_template` over a pattern with
`ngroups` capture groups, fueled for structural recursion (the fuel is an
upper bound on the template length).  Faithful to the source: `\g<k>` and
`\1`..`\99` are group references (out-of-range ones are errors), `\0` with
up to two more octal digits and three-octal-digit `\ddd` are character
escapes, `\a \b \f \n \r \t \v \\` map to their control characters, any
other escaped ASCII letter (such as the `\uXXXX` that `json.dumps` emits
for control characters) raises `re.error`, and an escaped non-letter
non-digit keeps both characters. -/
def parse_templateF (ngroups : Nat) : Nat → List Char → Option (List TItem)
  | _, [] => some []
  | 0, _ :: _ => none
  | fuel+1, '\\' :: rest =>
    match rest with
    | [] => none
    | 'g' :: r =>
      (match r with
       | '<' :: r2 =>
         let name := r2.takeWhile (fun x => x ≠ '>')
         match r2.dropWhile (fun x => x ≠ '>') with
         | '>' :: r4 =>
           if name ≠ [] ∧ name.all Char.isDigit then
             if natOfDigits name ≤ ngroups then
               (parse_templateF ngroups fuel r4).map
                 (fun ts => .group (natOfDigits name) :: ts)
             else none
           else none
         | _ => none
       | _ => none)
    | '0' :: r =>
      (match r with
       | d1 :: r2 =>
         if isOct d1 then
           match r2 with
           | d2 :: r3 =>
             if isOct d2 then
               (parse_templateF ngroups fuel r3).map
                 (fun ts => .lit (Char.ofNat (digVal d1 * 8 + digVal d2)) :: ts)
             else
               (parse_templateF ngroups fuel r2).map
                 (fun ts => .lit (Char.ofNat (digVal d1)) :: ts)
           | [] =>
             (parse_templateF ngroups fuel []).map
               (fun ts => .lit (Char.ofNat (digVal d1)) :: ts)
         else
           (parse_templateF ngroups fuel r).map
             (fun ts => .lit (Char.ofNat 0) :: ts)
       | [] =>
         (parse_templateF ngroups fuel []).map
           (fun ts => .lit (Char.ofNat 0) :: ts))
    | c :: r =>
      if c.isDigit then
        match r with
        | d2 :: r2 =>
          if d2.isDigit then
            match r2 with
            | d3 :: r3 =>
              if isOct c && isOct d2 && isOct d3 then
                if digVal c * 64 + digVal d2 * 8 + digVal d3 > 255 then none
                else
                  (parse_templateF ngroups fuel r3).map
                    (fun ts =>
                      .lit (Char.ofNat (digVal c * 64 + digVal d2 * 8 + digVal d3)) :: ts)
              else
                if digVal c * 10 + digVal d2 ≤ ngroups then
                  (parse_templateF ngroups fuel r2).map
                    (fun ts => .group (digVal c * 10 + digVal d2) :: ts)
                else none
            | [] =>
              if digVal c * 10 + digVal d2 ≤ ngroups then
                (parse_templateF ngroups fuel []).map
                  (fun ts => .group (digVal c * 10 + digVal d2) :: ts)
              else none
          else
            if digVal c ≤ ngroups then
              (parse_templateF ngroups fuel r).map (fun ts => .group (digVal c) :: ts)
            else none
        | [] =>
          if digVal c ≤ ngroups then
            (parse_templateF ngroups fuel []).map (fun ts => .group (digVal c) :: ts)
          else none
      else
        match replEsc c with
        | some ec => (parse_templateF ngroups fuel r).map (fun ts => .lit ec :: ts)
        | none =>
          if isAsciiLetter c then none
          else
            (parse_templateF ngroups fuel r).map
              (fun ts => .lit '\\' :: .lit c :: ts)
  | fuel+1, c :: rest =>
    (parse_templateF ngroups fuel rest).map (fun ts => .lit c :: ts)

/-- `re._parser.parse_template` of a whole replacement string. -/
def parse_template (ngroups : Nat) (t : List Char) : Option (List TItem) :=
  parse_templateF ngroups t.length t

/-- The replacement template passed to `re.sub` on src line 145:
the raw string `r'\1\n            '` (backslash-one, backslash-n and
twelve spaces, still unprocessed) followed by `insertion_text`, which is an
ordinary f-string `f'"{date_str}": {new_data_json},\n            '` whose
`\n` is already a real newline.  The serialized fragment `nj` is embedded
unprocessed; `re.sub` processes the whole template afterwards. -/
def replTemplate (date nj : List Char) : List Char :=
  ['\\', '1', '\\', 'n'] ++ ("            ").data ++
    '"' :: (date ++ ['"', ':', ' ']) ++ nj ++ [','] ++ ("\n            ").data

/-- Expansion of parsed template items at a match of the pattern
`(const NEWS_DATABASE = \{)`: the pattern's single capture group — and the
whole match, group 0 — always equal the anchor literal, so every group
reference expands to `ANCHOR`. -/
def expandTItems : List TItem → List Char
  | [] => []
  | .lit c :: ts => c :: expandTItems ts
  | .group _ :: ts => ANCHOR ++ expandTItems ts

/-- The claimed insertion fragment for an escape-free serialized fragment
`nj`: a newline, twelve spaces, `"{date}": {json},`, a newline and twelve
more spaces.  This is what the template expansion yields exactly when `nj`
contains no backslash. -/
def insertionFragment (date nj : List Char) : List Char :=
  ("\n            ").data ++ '"' :: (date ++ ['"', ':', ' ']) ++ nj ++
    [','] ++ ("\n            ").data

/-- Fueled left-to-right scan of `re.sub` with the literal anchor pattern:
every non-overlapping occurrence of the anchor is replaced by the expanded
replacement `repl` (constant across matches, since the only group always
captures the anchor itself).  The fuel is an upper bound on the input
length, so the `0, s` arm is never taken by `subAnchor`. -/
def subAnchorF (repl : List Char) : Nat → List Char → List Char
  | _, [] => []
  | 0, s => s
  | fuel+1, c :: rest =>
    if startsWith ANCHOR (c :: rest) then
      repl ++ subAnchorF repl fuel (rest.drop (ANCHOR.length - 1))
    else c :: subAnchorF repl fuel rest

/-- The match-replacement scan of the `re.sub` on src line 145. -/
def subAnchor (repl s : List Char) : List Char := subAnchorF repl s.length s

/-- Number of non-overlapping anchor occurrences found by the same
left-to-right scan as `subAnchorF`. -/
def countOccF : Nat → List Char → Nat
  | _, [] => 0
  | 0, _ => 0
  | fuel+1, c :: rest =>
    if startsWith ANCHOR (c :: rest) then
      1 + countOccF fuel (rest.drop (ANCHOR.length - 1))
    else countOccF fuel rest

/-- Number of non-overlapping anchor occurrences in `s`. -/
def countOcc (s : List Char) : Nat := countOccF s.length s

/-- Spec-side definition, from the spec's words: splice `ins` immediately
after the FIRST occurrence of the anchor only, leaving every other byte
unchanged.  Used to compare the source's `re.sub` behaviour against the
claimed behaviour. -/
def spliceFirstAnchor (ins : List Char) : List Char → List Char
  | [] => []
  | c :: rest =>
    if startsWith ANCHOR (c :: rest) then
      ANCHOR ++ ins ++ rest.drop (ANCHOR.length - 1)
    else c :: spliceFirstAnchor ins rest

/-- What `update_index_html` did: whether the file was written, and its
final content. -/
structure UpdateTrace where
  wrote : Bool
  doc : List Char
deriving DecidableEq

/-- Embedding of `update_index_html` (src lines 124-149), with the current
date and the serialized `json.dumps(new_entry, ensure_ascii=False,
indent=16)` fragment as parameters: if the date marker already occurs in
the document, return without writing; otherwise `re.sub` first parses its
replacement template (a bad escape such as `\uXXXX` in the fragment raises
`re.error` — modelled as `none` — so the exception propagates and nothing
is written), then replaces every anchor occurrence by the template's
expansion and the result is written back. -/
def update_index_html (date nj content : List Char) : Option UpdateTrace :=
  if containsSub (dupMarker date) content then some ⟨false, content⟩
  else
    match parse_template 1 (replTemplate date nj) with
    | none => none
    | some items => some ⟨true, subAnchor (expandTItems items) content⟩

/-- Python truthiness of a JSON number lexeme: zero numbers are falsy,
everything else (including `NaN` and the infinities) is truthy.  Float
underflow is not modelled (a lexeme like `1e-400` is `0.0`, hence falsy,
in Python but truthy here); this is unreachable in the theorems below,
since the generator's parsed value is always an array (the extracted
substring starts with `[`). -/
def numTruthy (lex : List Char) : Bool :=
  if lex.all (fun c => !c.isDigit) then true
  else (lex.takeWhile (fun c => c ≠ 'e' ∧ c ≠ 'E')).any
    (fun c => c.isDigit && c != '0')

/-- Python truthiness of a parsed JSON value (`if entry:` on src line 159). -/
def Json.truthy : Json → Bool
  | .null => false
  | .bool b => b
  | .num lex => numTruthy lex
  | .str s => !s.isEmpty
  | .arr xs => !xs.isEmpty
  | .obj kvs => !kvs.isEmpty

/-- The process environment: presence of the two API keys, the outcomes of
the two possible search requests, the outcome of each model call, the
serialization used for the generated entries, the current date string and
the initial content of `index.html`. -/
structure Env where
  geminiKey : Bool
  braveKey : Bool
  primary : HttpResp
  fallback : HttpResp
  gen : String → GenOutcome
  dumps : Json → List Char
  date : List Char
  doc : List Char

/-- Observable outcome of one run of the script. -/
structure RunResult where
  exitCode : Nat
  fallbackCalled : Bool
  genAttempts : List (String × Nat)
  genCalled : Bool
  docRead : Bool
  docWrote : Bool
  doc : List Char

/-- Embedding of the `__main__` block (src lines 151-165): check the keys,
fetch, generate when the news list is non-empty (empty lists are falsy),
and update the document when the generated entry is truthy; otherwise exit
with code 1.  An uncaught `re.error` inside the updater (after the file
was read, before any write) makes the interpreter exit with code 1. -/
def main_run (env : Env) : RunResult :=
  if env.geminiKey && env.braveKey then
    let ft := fetch_insurance_news env.primary env.fallback
    match ft.outcome with
    | .error c => ⟨c, ft.fallbackCalled, [], false, false, false, env.doc⟩
    | .ok news =>
      if news.isEmpty then ⟨0, ft.fallbackCalled, [], false, false, false, env.doc⟩
      else
        let gt := generate_news_entry env.gen
        match gt.outcome with
        | .error c => ⟨c, ft.fallbackCalled, gt.attempts, true, false, false, env.doc⟩
        | .ok entry =>
          if entry.truthy then
            match update_index_html env.date (env.dumps entry) env.doc with
            | none => ⟨1, ft.fallbackCalled, gt.attempts, true, true, false, env.doc⟩
            | some ut => ⟨0, ft.fallbackCalled, gt.attempts, true, true, ut.wrote, ut.doc⟩
          else ⟨1, ft.fallbackCalled, gt.attempts, true, false, false, env.doc⟩
  else ⟨1, false, [], false, false, false, env.doc⟩

/-- A concrete search result used by the concrete instantiations below. -/
def newsFix : NewsResult := ⟨("t").data, ("u").data, ("d").data⟩

/-- Environment where both keys are set, the primary search succeeds with
three results and every model call raises a non-rate-limit error. -/
def env3fix : Env :=
  ⟨true, true, .resp 200 [newsFix, newsFix, newsFix], .resp 200 [],
    fun _ => .genError, fun _ => [], ("2099-01-01").data, ("page").data⟩

/-- Model oracle where the first model errors and every later model
responds with the text `[]`. -/
def gen4fix : String → GenOutcome :=
  fun n => if n = "gemini-2.0-flash" then .genError else .success (("[]").data)

/-- Model oracle where the first model responds with text containing no
bracket-delimited array. -/
def gen7fix : String → GenOutcome :=
  fun n => if n = "gemini-2.0-flash" then .success (("no json here").data) else .genError

/-- Environment where the first model call succeeds with response `[]`,
which parses to the empty JSON array. -/
def env8fix : Env :=
  ⟨true, true, .resp 200 [newsFix, newsFix, newsFix], .resp 200 [],
    fun _ => .success (("[]").data), fun _ => [], ("2099-01-01").data, ("page").data⟩

/-- Environment where both search responses carry a non-200 status. -/
def env9fix : Env :=
  ⟨true, true, .resp 404 [newsFix], .resp 500 [newsFix],
    fun _ => .genError, fun _ => [], ("2099-01-01").data, ("page").data⟩

/-- A document holding exactly one anchor occurrence. -/
def oneAnchorDoc : List Char :=
  ("<html> ").data ++ ANCHOR ++ ("\x7d </html>").data

/-- `startsWith` holds of any list extended from the pattern itself. -/
theorem startsWith_append_self (p t : List Char) : startsWith p (p ++ t) = true := by
  induction p with
  | nil => rfl
  | cons c cs ih => simp [startsWith, ih]

/-- The empty pattern is a substring of anything. -/
theorem containsSub_nil_pat (s : List Char) : containsSub [] s = true := by
  cases s with
  | nil => rfl
  | cons c rest => simp [containsSub, startsWith]

/-- A pattern occurring anywhere in a list is found by `containsSub`. -/
theorem containsSub_sandwich (pat pre suf : List Char) :
    containsSub pat (pre ++ pat ++ suf) = true := by
  induction pre with
  | nil =>
    cases pat with
    | nil => simpa using containsSub_nil_pat suf
    | cons p ps =>
      have h := startsWith_append_self (p :: ps) suf
      simp only [List.nil_append, List.cons_append, containsSub, Bool.or_eq_true]
      exact Or.inl h
  | cons c pre ih =>
    have hstep : containsSub pat ((c :: pre) ++ pat ++ suf) =
        (startsWith pat ((c :: pre) ++ pat ++ suf) || containsSub pat (pre ++ pat ++ suf)) := rfl
    rw [hstep, ih, Bool.or_true]

/-- If the scan finds no anchor occurrence, the substitution is the
identity. -/
theorem subAnchorF_count_zero (ins : List Char) :
    ∀ fuel s, s.length ≤ fuel → countOccF fuel s = 0 → subAnchorF ins fuel s = s := by
  intro fuel
  induction fuel with
  | zero =>
    intro s hs _
    have h : s = [] := List.length_eq_zero.mp (Nat.le_zero.mp hs)
    subst h; rfl
  | succ n ih =>
    intro s hs h0
    cases s with
    | nil => rfl
    | cons c rest =>
      cases hst : startsWith ANCHOR (c :: rest) with
      | true =>
        simp only [countOccF, hst, if_true] at h0
        omega
      | false =>
        simp only [countOccF, hst, Bool.false_eq_true, if_false] at h0
        simp only [subAnchorF, hst, Bool.false_eq_true, if_false]
        simp only [List.length_cons] at hs
        exact congrArg (c :: ·) (ih rest (by omega) h0)

/-- If the scan finds exactly one anchor occurrence, replacing every match
by `ANCHOR ++ ins` agrees with splicing `ins` in right after the first
occurrence only. -/
theorem subAnchorF_count_one (ins : List Char) :
    ∀ fuel s, s.length ≤ fuel → countOccF fuel s = 1 →
      subAnchorF (ANCHOR ++ ins) fuel s = spliceFirstAnchor ins s := by
  intro fuel
  induction fuel with
  | zero =>
    intro s hs h1
    have h : s = [] := List.length_eq_zero.mp (Nat.le_zero.mp hs)
    subst h; simp [countOccF] at h1
  | succ n ih =>
    intro s hs h1
    cases s with
    | nil => simp [countOccF] at h1
    | cons c rest =>
      simp only [List.length_cons] at hs
      cases hst : startsWith ANCHOR (c :: rest) with
      | true =>
        simp only [countOccF, hst, if_true] at h1
        have hz : countOccF n (rest.drop (ANCHOR.length - 1)) = 0 := by omega
        have hlen : (rest.drop (ANCHOR.length - 1)).length ≤ n := by
          have := List.length_drop (ANCHOR.length - 1) rest
          omega
        simp only [subAnchorF, spliceFirstAnchor, hst, if_true]
        rw [subAnchorF_count_zero (ANCHOR ++ ins) n _ hlen hz, List.append_assoc]
      | false =>
        simp only [countOccF, hst, Bool.false_eq_true, if_false] at h1
        simp only [subAnchorF, spliceFirstAnchor, hst, Bool.false_eq_true, if_false]
        exact congrArg (c :: ·) (ih rest (by omega) h1)

/-- If no model in the list succeeds, the loop attempts each model in
order, sleeping after exactly the rate-limited ones, and yields no
response. -/
theorem genLoop_all_fail (f : String → GenOutcome) :
    ∀ ms : List String, (∀ m ∈ ms, ∀ t, f m ≠ .success t) →
      genLoop f ms =
        (ms.map (fun m => (m, if f m = .rateLimited then 10 else 0)), none) := by
  intro ms
  induction ms with
  | nil => intro _; rfl
  | cons m ms ih =>
    intro h
    have hm := h m (by simp)
    have hrest : ∀ x ∈ ms, ∀ t, f x ≠ .success t := fun x hx => h x (by simp [hx])
    cases hfm : f m with
    | success t => exact absurd hfm (hm t)
    | rateLimited => simp [genLoop, hfm, ih hrest]
    | genError => simp [genLoop, hfm, ih hrest]

/-- If every model before `m` fails and `m` succeeds with `text`, the loop
attempts exactly the failing ones and `m`, and yields `text`. -/
theorem genLoop_first_success (f : String → GenOutcome) :
    ∀ (ms1 : List String) (m : String) (ms2 : List String) (text : List Char),
      (∀ x ∈ ms1, ∀ t, f x ≠ .success t) → f m = .success text →
      genLoop f (ms1 ++ m :: ms2) =
        (ms1.map (fun x => (x, if f x = .rateLimited then 10 else 0)) ++ [(m, 0)],
          some text) := by
  intro ms1
  induction ms1 with
  | nil =>
    intro m ms2 text _ hs
    simp [genLoop, hs]
  | cons a ms1 ih =>
    intro m ms2 text hfail hs
    have ha := hfail a (by simp)
    have hrest : ∀ x ∈ ms1, ∀ t, f x ≠ .success t := fun x hx => hfail x (by simp [hx])
    cases hfa : f a with
    | success t => exact absurd hfa (ha t)
    | rateLimited => simp [genLoop, hfa, ih m ms2 text hrest hs]
    | genError => simp [genLoop, hfa, ih m ms2 text hrest hs]

/-- The attempted models are always an initial segment of the model list,
and the sleep recorded after an attempt is 10 seconds exactly for
rate-limited attempts. -/
theorem genLoop_trace_shape (f : String → GenOutcome) :
    ∀ ms : List String,
      (genLoop f ms).1.map Prod.fst = ms.take (genLoop f ms).1.length ∧
      ∀ p ∈ (genLoop f ms).1, p.2 = if f p.1 = .rateLimited then 10 else 0 := by
  intro ms
  induction ms with
  | nil => exact ⟨rfl, by intro p hp; cases hp⟩
  | cons m ms ih =>
    cases hfm : f m with
    | success t =>
      refine ⟨by simp [genLoop, hfm], ?_⟩
      intro p hp
      simp only [genLoop, hfm] at hp
      simp only [List.mem_singleton] at hp
      subst hp
      simp [hfm]
    | rateLimited =>
      refine ⟨?_, ?_⟩
      · simp [genLoop, hfm, List.take_succ_cons, ih.1]
      · intro p hp
        simp only [genLoop, hfm, List.mem_cons] at hp
        rcases hp with hp | hp
        · subst hp; simp [hfm]
        · exact ih.2 p hp
    | genError =>
      refine ⟨?_, ?_⟩
      · simp [genLoop, hfm, List.take_succ_cons, ih.1]
      · intro p hp
        simp only [genLoop, hfm, List.mem_cons] at hp
        rcases hp with hp | hp
        · subst hp; simp [hfm]
        · exact ih.2 p hp

/-- The generator records exactly the loop's attempts, whatever happens to
the response afterwards. -/
theorem generate_attempts_eq (f : String → GenOutcome) :
    (generate_news_entry f).attempts = (genLoop f models_to_try).1 := by
  unfold generate_news_entry
  rw [show genLoop f models_to_try =
    ((genLoop f models_to_try).1, (genLoop f models_to_try).2) from rfl]
  cases h2 : (genLoop f models_to_try).2 with
  | none => rfl
  | some text =>
    cases hext : extractArray text with
    | none => simp [hext]
    | some s =>
      cases hj : json_loads s with
      | none => simp [hext, hj]
      | some v => simp [hext, hj]

/-- Mapping the model name out of an attempt list built from failures plus
one success. -/
theorem map_fst_attempt_list (ms1 : List String) (w : String → Nat) (m : String) :
    ((ms1.map (fun x => (x, w x)) ++ [(m, 0)]).map Prod.fst) = ms1 ++ [m] := by
  rw [List.map_append, List.map_map]
  rw [show (Prod.fst ∘ fun x : String => (x, w x)) = id from rfl, List.map_id]
  rfl

/-- Claim C1, counterexample: on a document containing the anchor token
twice (and no marker for the date), `update_index_html` does NOT produce
the document with the fragment spliced only after the first anchor
occurrence and all other bytes unchanged — the `re.sub` on src line 145
splices after every occurrence. -/
theorem update_multi_anchor_counterexample :
    containsSub ANCHOR (ANCHOR ++ ANCHOR) = true ∧
    containsSub (dupMarker (("2099-01-01").data)) (ANCHOR ++ ANCHOR) = false ∧
    update_index_html (("2099-01-01").data) (("[]").data) (ANCHOR ++ ANCHOR) ≠
      some ⟨true, spliceFirstAnchor (insertionFragment (("2099-01-01").data) (("[]").data))
        (ANCHOR ++ ANCHOR)⟩ := by
  refine ⟨by decide, by decide, by decide⟩

/-- Claim C1, amended: for every document text containing exactly one
occurrence of the anchor token, every current date whose key marker does
not already appear in the text, and every serialized fragment whose
`re.sub` replacement template parses (no bad escape such as `\uXXXX`; the
template always starts with the group reference `\1`), `update_index_html`
writes back the document with the template's escape-processed expansion of
`"<date>": <json>,` (a `\n` two-character sequence becomes a newline,
`\\` collapses, and so on) spliced immediately after the (unique, hence
first) occurrence of the anchor token, every other byte unchanged.  When
the template does not parse, `re.error` propagates and nothing is
written. -/
theorem update_single_anchor_inserts (date nj content : List Char) (items : List TItem)
    (h1 : countOcc content = 1)
    (h2 : containsSub (dupMarker date) content = false)
    (h3 : parse_template 1 (replTemplate date nj) = some (TItem.group 1 :: items)) :
    update_index_html date nj content =
      some ⟨true, spliceFirstAnchor (expandTItems items) content⟩ := by
  unfold update_index_html
  rw [h2]
  simp only [Bool.false_eq_true, if_false]
  rw [h3]
  have heq : subAnchor (expandTItems (TItem.group 1 :: items)) content =
      spliceFirstAnchor (expandTItems items) content := by
    unfold subAnchor
    unfold countOcc at h1
    exact subAnchorF_count_one (expandTItems items) content.length content (le_refl _) h1
  exact congrArg some (congrArg (UpdateTrace.mk true) heq)

/-- Witness for `update_single_anchor_inserts` on a concrete document with
one anchor and the escape-free fragment `[]`, whose template expansion is
the literal insertion fragment. -/
theorem update_single_anchor_inserts_witness :
    countOcc oneAnchorDoc = 1 ∧
    containsSub (dupMarker (("2099-01-01").data)) oneAnchorDoc = false ∧
    parse_template 1 (replTemplate (("2099-01-01").data) (("[]").data)) =
      some (TItem.group 1 ::
        (insertionFragment (("2099-01-01").data) (("[]").data)).map TItem.lit) ∧
    update_index_html (("2099-01-01").data) (("[]").data) oneAnchorDoc =
      some ⟨true, spliceFirstAnchor
        (expandTItems ((insertionFragment (("2099-01-01").data) (("[]").data)).map TItem.lit))
        oneAnchorDoc⟩ :=
  ⟨by decide, by decide, by decide,
    update_single_anchor_inserts (("2099-01-01").data) (("[]").data) oneAnchorDoc
      ((insertionFragment (("2099-01-01").data) (("[]").data)).map TItem.lit)
      (by decide) (by decide) (by decide)⟩

/-- Claim C2: whenever the marker `"<date>":` already occurs in the
document text, `update_index_html` returns without writing and the document
is byte-identical. -/
theorem update_duplicate_date_noop (date nj content : List Char)
    (h : containsSub (dupMarker date) content = true) :
    update_index_html date nj content = some ⟨false, content⟩ := by
  simp [update_index_html, h]

/-- Witness for `update_duplicate_date_noop` on a document that contains
the date marker. -/
theorem update_duplicate_date_noop_witness :
    containsSub (dupMarker (("2099-01-01").data)) (dupMarker (("2099-01-01").data)) = true ∧
    update_index_html (("2099-01-01").data) (("[]").data)
        (dupMarker (("2099-01-01").data)) =
      some ⟨false, dupMarker (("2099-01-01").data)⟩ :=
  ⟨by decide,
    update_duplicate_date_noop (("2099-01-01").data) (("[]").data)
      (dupMarker (("2099-01-01").data)) (by decide)⟩

/-- Claim C10: the duplicate-day guard triggers on ANY occurrence of the
substring `"<date>":` anywhere in the document — any document of the form
`pre ++ "<date>": ++ suf` is left byte-identical without a write,
regardless of where the marker sits. -/
theorem duplicate_guard_any_occurrence (date nj pre suf : List Char) :
    update_index_html date nj (pre ++ dupMarker date ++ suf) =
      some ⟨false, pre ++ dupMarker date ++ suf⟩ := by
  have h : containsSub (dupMarker date) (pre ++ (dupMarker date ++ suf)) = true := by
    rw [← List.append_assoc]; exact containsSub_sandwich _ _ _
  simp [update_index_html, h]

/-- Claim C5: with both search calls answering HTTP 200, a primary result
list with fewer than 3 items makes the fetcher issue exactly one broader
fallback call and return the fallback's result list instead, while a
primary list with 3 or more items is returned as-is with no second call. -/
theorem fetch_fallback_on_sparse_results (rs rs2 : List NewsResult) :
    fetch_insurance_news (.resp 200 rs) (.resp 200 rs2) =
      if rs.length < 3 then ⟨true, .ok rs2⟩ else ⟨false, .ok rs⟩ := by
  by_cases h : rs.length < 3 <;> simp [fetch_insurance_news, h]

/-- Claim C3: when both keys are set, the fetch returned a non-empty news
list, and every model in the fixed priority list raises an error (no
generation call succeeds), the process exits with code 1 and the target
document is never read or written. -/
theorem all_models_fail_exits_nonzero (env : Env) (news : List NewsResult)
    (hg : env.geminiKey = true) (hb : env.braveKey = true)
    (hf : (fetch_insurance_news env.primary env.fallback).outcome = .ok news)
    (hn : news ≠ [])
    (hm : ∀ m ∈ models_to_try, ∀ t, env.gen m ≠ .success t) :
    (main_run env).exitCode = 1 ∧ (main_run env).docRead = false ∧
    (main_run env).docWrote = false ∧ (main_run env).doc = env.doc := by
  have hgen : (generate_news_entry env.gen).outcome = .error 1 := by
    unfold generate_news_entry
    rw [genLoop_all_fail env.gen models_to_try hm]
  have hne : news.isEmpty = false := by
    cases news with
    | nil => exact absurd rfl hn
    | cons a l => rfl
  simp only [main_run, hg, hb, Bool.and_self, if_true, hf, hne]
  rw [show (generate_news_entry env.gen) =
    ⟨(generate_news_entry env.gen).attempts, (generate_news_entry env.gen).outcome⟩ from rfl,
    hgen]
  simp

/-- Witness for `all_models_fail_exits_nonzero` on an environment where
all three models raise non-rate-limit errors. -/
theorem all_models_fail_exits_nonzero_witness :
    env3fix.geminiKey = true ∧ env3fix.braveKey = true ∧
    (fetch_insurance_news env3fix.primary env3fix.fallback).outcome =
      .ok [newsFix, newsFix, newsFix] ∧
    ([newsFix, newsFix, newsFix] : List NewsResult) ≠ [] ∧
    (∀ m ∈ models_to_try, ∀ t, env3fix.gen m ≠ .success t) ∧
    ((main_run env3fix).exitCode = 1 ∧ (main_run env3fix).docRead = false ∧
     (main_run env3fix).docWrote = false ∧ (main_run env3fix).doc = env3fix.doc) :=
  ⟨rfl, rfl, rfl, by decide, fun m hm t h => GenOutcome.noConfusion h,
    all_models_fail_exits_nonzero env3fix [newsFix, newsFix, newsFix] rfl rfl rfl
      (by decide) (fun m hm t h => GenOutcome.noConfusion h)⟩

/-- Claim C4: if the models before `m` in the fixed list all raise errors
and `m`'s generation call succeeds with a response whose extracted array
substring parses as JSON, `generate_news_entry` returns exactly the parsed
value and calls no model after `m`. -/
theorem first_success_returns_parsed_array
    (f : String → GenOutcome) (ms1 : List String) (m : String) (ms2 : List String)
    (text s : List Char) (v : Json)
    (hdec : models_to_try = ms1 ++ m :: ms2)
    (hfail : ∀ x ∈ ms1, ∀ t, f x ≠ .success t)
    (hsucc : f m = .success text)
    (hex : extractArray text = some s)
    (hj : json_loads s = some v) :
    (generate_news_entry f).outcome = .ok v ∧
    (generate_news_entry f).attempts.map Prod.fst = ms1 ++ [m] := by
  have hloop : genLoop f models_to_try =
      (ms1.map (fun x => (x, if f x = .rateLimited then 10 else 0)) ++ [(m, 0)],
        some text) := by
    rw [hdec]; exact genLoop_first_success f ms1 m ms2 text hfail hsucc
  constructor
  · unfold generate_news_entry
    rw [hloop]
    simp [hex, hj]
  · rw [generate_attempts_eq, hloop]
    exact map_fst_attempt_list ms1 _ m

/-- Witness for `first_success_returns_parsed_array`: the first model
errors, the second responds `[]`, which extracts and parses to the empty
array. -/
theorem first_success_returns_parsed_array_witness :
    models_to_try = ["gemini-2.0-flash"] ++ ("gemini-1.5-pro") :: ["gemini-1.5-flash"] ∧
    gen4fix ("gemini-1.5-pro") = .success (("[]").data) ∧
    extractArray (("[]").data) = some (("[]").data) ∧
    json_loads (("[]").data) = some (Json.arr []) ∧
    ((generate_news_entry gen4fix).outcome = .ok (Json.arr []) ∧
     (generate_news_entry gen4fix).attempts.map Prod.fst =
       ["gemini-2.0-flash"] ++ ["gemini-1.5-pro"]) :=
  ⟨rfl, rfl, rfl, rfl,
    first_success_returns_parsed_array gen4fix ["gemini-2.0-flash"] ("gemini-1.5-pro")
      ["gemini-1.5-flash"] (("[]").data) (("[]").data) (Json.arr []) rfl
      (by intro x hx t h
          have hx2 : x = "gemini-2.0-flash" := by simpa using hx
          subst hx2
          cases h)
      rfl rfl rfl⟩

/-- Claim C6: the generator's attempt list is always an initial segment of
the fixed model list (each identifier tried at most once, in order, no
retry of the same identifier), and the backoff slept after an attempt is
the fixed 10 seconds exactly when that model's call was rate-limited, and
nothing otherwise. -/
theorem rate_limit_backoff_then_advance (f : String → GenOutcome) :
    (generate_news_entry f).attempts.map Prod.fst =
      models_to_try.take (generate_news_entry f).attempts.length ∧
    ∀ p ∈ (generate_news_entry f).attempts,
      p.2 = if f p.1 = .rateLimited then 10 else 0 := by
  rw [generate_attempts_eq]
  exact genLoop_trace_shape f models_to_try

/-- Claim C7: once a model's generation call succeeds, a response text with
no bracket-delimited array substring, or whose extracted substring fails to
parse as JSON, makes the generator exit with code 1 without attempting any
further model identifier. -/
theorem parse_failure_fatal
    (f : String → GenOutcome) (ms1 : List String) (m : String) (ms2 : List String)
    (text : List Char)
    (hdec : models_to_try = ms1 ++ m :: ms2)
    (hfail : ∀ x ∈ ms1, ∀ t, f x ≠ .success t)
    (hsucc : f m = .success text)
    (hbad : extractArray text = none ∨
      ∃ s, extractArray text = some s ∧ json_loads s = none) :
    (generate_news_entry f).outcome = .error 1 ∧
    (generate_news_entry f).attempts.map Prod.fst = ms1 ++ [m] := by
  have hloop : genLoop f models_to_try =
      (ms1.map (fun x => (x, if f x = .rateLimited then 10 else 0)) ++ [(m, 0)],
        some text) := by
    rw [hdec]; exact genLoop_first_success f ms1 m ms2 text hfail hsucc
  constructor
  · unfold generate_news_entry
    rw [hloop]
    rcases hbad with h | ⟨s, h1, h2⟩
    · simp [h]
    · simp [h1, h2]
  · rw [generate_attempts_eq, hloop]
    exact map_fst_attempt_list ms1 _ m

/-- Witness for `parse_failure_fatal`: the very first model succeeds with a
response containing no bracket-delimited array. -/
theorem parse_failure_fatal_witness :
    models_to_try = ([] : List String) ++ ("gemini-2.0-flash") ::
      ["gemini-1.5-pro", "gemini-1.5-flash"] ∧
    gen7fix ("gemini-2.0-flash") = .success (("no json here").data) ∧
    extractArray (("no json here").data) = none ∧
    ((generate_news_entry gen7fix).outcome = .error 1 ∧
     (generate_news_entry gen7fix).attempts.map Prod.fst = [] ++ ["gemini-2.0-flash"]) :=
  ⟨rfl, rfl, rfl,
    parse_failure_fatal gen7fix [] ("gemini-2.0-flash") ["gemini-1.5-pro", "gemini-1.5-flash"]
      (("no json here").data) rfl (by intro x hx; cases hx) rfl (Or.inl rfl)⟩

/-- Claim C8: if the generator returns the successfully parsed empty JSON
array, the main program treats it as a failure — it exits with code 1
without invoking the document updater (which is never read or written) —
even though no parse error occurred. -/
theorem empty_array_treated_as_failure (env : Env) (news : List NewsResult)
    (hg : env.geminiKey = true) (hb : env.braveKey = true)
    (hf : (fetch_insurance_news env.primary env.fallback).outcome = .ok news)
    (hn : news ≠ [])
    (hgen : (generate_news_entry env.gen).outcome = .ok (Json.arr [])) :
    (main_run env).exitCode = 1 ∧ (main_run env).genCalled = true ∧
    (main_run env).docRead = false ∧ (main_run env).docWrote = false ∧
    (main_run env).doc = env.doc := by
  have hne : news.isEmpty = false := by
    cases news with
    | nil => exact absurd rfl hn
    | cons a l => rfl
  simp only [main_run, hg, hb, Bool.and_self, if_true, hf, hne]
  rw [show (generate_news_entry env.gen) =
    ⟨(generate_news_entry env.gen).attempts, (generate_news_entry env.gen).outcome⟩ from rfl,
    hgen]
  simp [Json.truthy]

/-- Witness for `empty_array_treated_as_failure`: the first model responds
with the text `[]`. -/
theorem empty_array_treated_as_failure_witness :
    env8fix.geminiKey = true ∧ env8fix.braveKey = true ∧
    (fetch_insurance_news env8fix.primary env8fix.fallback).outcome =
      .ok [newsFix, newsFix, newsFix] ∧
    ([newsFix, newsFix, newsFix] : List NewsResult) ≠ [] ∧
    (generate_news_entry env8fix.gen).outcome = .ok (Json.arr []) ∧
    ((main_run env8fix).exitCode = 1 ∧ (main_run env8fix).genCalled = true ∧
     (main_run env8fix).docRead = false ∧ (main_run env8fix).docWrote = false ∧
     (main_run env8fix).doc = env8fix.doc) :=
  ⟨rfl, rfl, rfl, by decide, rfl,
    empty_array_treated_as_failure env8fix [newsFix, newsFix, newsFix] rfl rfl rfl
      (by decide) rfl⟩

/-- Claim C9: a non-200 HTTP status from the search API is not a transport
error: with both keys set and both the primary and the fallback call
answering non-200, the fetcher silently returns the empty result list
(after issuing the one fallback call) and the process ends with exit code
0, no generation call made and the document unchanged. -/
theorem non_200_status_silent_empty (env : Env) (s1 s2 : Nat)
    (rs1 rs2 : List NewsResult)
    (hg : env.geminiKey = true) (hb : env.braveKey = true)
    (hp : env.primary = .resp s1 rs1) (h1 : s1 ≠ 200)
    (hfb : env.fallback = .resp s2 rs2) (h2 : s2 ≠ 200) :
    fetch_insurance_news env.primary env.fallback = ⟨true, .ok []⟩ ∧
    (main_run env).exitCode = 0 ∧ (main_run env).genCalled = false ∧
    (main_run env).docWrote = false ∧ (main_run env).doc = env.doc := by
  have hfetch : fetch_insurance_news env.primary env.fallback = ⟨true, .ok []⟩ := by
    rw [hp, hfb]
    simp [fetch_insurance_news, h1, h2]
  refine ⟨hfetch, ?_⟩
  simp only [main_run, hg, hb, Bool.and_self, if_true, hfetch]
  simp

/-- Witness for `non_200_status_silent_empty`: primary answers 404,
fallback answers 500. -/
theorem non_200_status_silent_empty_witness :
    env9fix.geminiKey = true ∧ env9fix.braveKey = true ∧
    env9fix.primary = .resp 404 [newsFix] ∧ (404 : Nat) ≠ 200 ∧
    env9fix.fallback = .resp 500 [newsFix] ∧ (500 : Nat) ≠ 200 ∧
    (fetch_insurance_news env9fix.primary env9fix.fallback = ⟨true, .ok []⟩ ∧
     (main_run env9fix).exitCode = 0 ∧ (main_run env9fix).genCalled = false ∧
     (main_run env9fix).docWrote = false ∧ (main_run env9fix).doc = env9fix.doc) :=
  ⟨rfl, rfl, rfl, by decide, rfl, by decide,
    non_200_status_silent_empty env9fix 404 500 [newsFix] [newsFix] rfl rfl rfl
      (by decide) rfl (by decide)⟩
